import Mathlib

/-!
# Verification of the single-flowline glacier evolution core

A shallow embedding, over `ℚ`, of the 1-D glacier flowline evolution core:
flowline state, mass-balance provider, flux-based evolution solver and
simulation driver.  The stochastic mass-balance model is translated from the
notebook `docs/notebooks/flowline_with_known_bedrock.ipynb`; the library side
(flowline construction, diagnostics and the time stepper) is not shipped with
the repository, so those definitions are modelled from the specification text,
as marked in their doc comments.
-/

namespace Glacier

/-! ## Finite-range helpers

Executable sums, maxima and existence checks over index ranges `0, …, n-1`,
used in place of floating-point array reductions. -/

/-- Sum of `f 0 + f 1 + ⋯ + f (n-1)`. -/
def sumRange (f : ℕ → ℚ) : ℕ → ℚ
  | 0 => 0
  | k + 1 => sumRange f k + f k

/-- Maximum of `f 0, …, f (n-1)`, with `0` for an empty range. -/
def maxRange (f : ℕ → ℚ) : ℕ → ℚ
  | 0 => 0
  | k + 1 => max (maxRange f k) (f k)

/-- Does `f i = true` hold for some `i < n`? -/
def anyRange (f : ℕ → Bool) : ℕ → Bool
  | 0 => false
  | k + 1 => anyRange f k || f k

theorem sumRange_congr {f g : ℕ → ℚ} {n : ℕ} (h : ∀ i, i < n → f i = g i) :
    sumRange f n = sumRange g n := by
  induction n with
  | zero => rfl
  | succ k ih =>
    simp only [sumRange]
    rw [ih (fun i hi => h i (Nat.lt_succ_of_lt hi)), h k (Nat.lt_succ_self k)]

theorem sumRange_add (f g : ℕ → ℚ) (n : ℕ) :
    sumRange (fun i => f i + g i) n = sumRange f n + sumRange g n := by
  induction n with
  | zero => simp [sumRange]
  | succ k ih => simp only [sumRange, ih]; ring

theorem sumRange_nonneg {f : ℕ → ℚ} {n : ℕ} (h : ∀ i, i < n → 0 ≤ f i) :
    0 ≤ sumRange f n := by
  induction n with
  | zero => simp [sumRange]
  | succ k ih =>
    have h1 : 0 ≤ sumRange f k := ih (fun i hi => h i (Nat.lt_succ_of_lt hi))
    have h2 : 0 ≤ f k := h k (Nat.lt_succ_self k)
    simpa [sumRange] using add_nonneg h1 h2

theorem sumRange_telescope (g : ℕ → ℚ) (n : ℕ) :
    sumRange (fun i => g (i + 1) - g i) n = g n - g 0 := by
  induction n with
  | zero => simp [sumRange]
  | succ k ih => simp only [sumRange, ih]; ring

theorem sumRange_mul_left (c : ℚ) (f : ℕ → ℚ) (n : ℕ) :
    sumRange (fun i => c * f i) n = c * sumRange f n := by
  induction n with
  | zero => simp [sumRange]
  | succ k ih => simp only [sumRange, ih]; ring

/-- Reading inside `(List.range n).map f` by `getD`. -/
theorem getD_range_map (f : ℕ → ℚ) {n i : ℕ} (h : i < n) (d : ℚ) :
    ((List.range n).map f).getD i d = f i := by
  rw [List.getD_eq_getElem?_getD, List.getElem?_map, List.getElem?_range h]
  rfl

/-! ## Physical constants

From `oggm.cfg` as used by the notebook: seconds per year, and the density of
ice (the notebook's doc string states 900 kg m⁻³). -/

def SEC_IN_YEAR : ℚ := 31536000

def RHO : ℚ := 900

/-! ## Flowline state -/

/-- Modelled from the spec: the Flowline State of §3 (the library class
`RectangularBedFlowline` is not shipped with the repository).  Per-grid-point
bedrock elevation `bed_h`, ice surface elevation `surface_h` and channel width
`widths`, with fixed grid spacing `dx` in meters. -/
structure Flowline where
  surface_h : List ℚ
  bed_h : List ℚ
  widths : List ℚ
  dx : ℚ
deriving DecidableEq

namespace Flowline

/-- Number of grid points. -/
def n (fl : Flowline) : ℕ := fl.surface_h.length

/-- Surface elevation at grid point `i`. -/
def sAt (fl : Flowline) (i : ℕ) : ℚ := fl.surface_h.getD i 0

/-- Bed elevation at grid point `i`. -/
def bAt (fl : Flowline) (i : ℕ) : ℚ := fl.bed_h.getD i 0

/-- Width at grid point `i`. -/
def wAt (fl : Flowline) (i : ℕ) : ℚ := fl.widths.getD i 0

/-- Ice thickness at grid point `i`. -/
def thickAt (fl : Flowline) (i : ℕ) : ℚ := fl.sAt i - fl.bAt i

/-- Modelled from the spec: `thickness()` returns `surface_h - bed_h`
elementwise. -/
def thickness (fl : Flowline) : List ℚ := (List.range fl.n).map fl.thickAt

/-- Modelled from the spec: the small positive threshold below which ice is
treated as ice-free for the derived diagnostics. -/
def iceFreeThr : ℚ := 1 / 10

/-- Modelled from the spec: `length_m` is `dx` times the number of points with
thickness above the ice-free threshold. -/
def length_m (fl : Flowline) : ℚ :=
  fl.dx * sumRange (fun i => if iceFreeThr < fl.thickAt i then (1 : ℚ) else 0) fl.n

/-- Modelled from the spec: ice volume in m³, summed over ice-covered points
(thickness above the threshold). -/
def volume_m3 (fl : Flowline) : ℚ :=
  sumRange (fun i => if iceFreeThr < fl.thickAt i then fl.wAt i * fl.dx * fl.thickAt i else 0) fl.n

/-- Modelled from the spec: `volume_km3` is the ice-covered volume converted to
km³. -/
def volume_km3 (fl : Flowline) : ℚ := fl.volume_m3 / 1000000000

/-- Ice volume in m³ summed over all grid points, with no ice-free threshold:
used for the mass-conservation accounting. -/
def totalVolume_m3 (fl : Flowline) : ℚ :=
  sumRange (fun i => fl.wAt i * fl.dx * fl.thickAt i) fl.n

/-- Modelled from the spec: `apply_delta(delta_thickness)` adds a per-point
thickness change to `surface_h`, clamps any resulting negative thickness to
zero, and returns the new state together with the total volume restored by the
clamping (the mass-conservation diagnostic reported as volume lost). -/
def apply_delta (fl : Flowline) (delta : List ℚ) : Flowline × ℚ :=
  ({ fl with
      surface_h :=
        (List.range fl.n).map (fun i => max (fl.sAt i + delta.getD i 0) (fl.bAt i)) },
    sumRange
      (fun i =>
        fl.wAt i * fl.dx *
          (max (fl.sAt i + delta.getD i 0) (fl.bAt i) - (fl.sAt i + delta.getD i 0)))
      fl.n)

/-- Well-formed geometry: equal array lengths, positive grid spacing and
surface nowhere below bed. -/
def Wf (fl : Flowline) : Prop :=
  fl.surface_h.length = fl.bed_h.length ∧ fl.bed_h.length = fl.widths.length ∧
    0 < fl.dx ∧ ∀ i, i < fl.n → fl.bAt i ≤ fl.sAt i

/-- Strictly positive widths at every grid point. -/
def PosWidths (fl : Flowline) : Prop := ∀ i, i < fl.n → 0 < fl.wAt i

/-- Modelled from the spec: the geometry error raised at construction. -/
inductive GeomError
  | InvalidGeometry
deriving DecidableEq

/-- Modelled from the spec: `construct(surface_h, bed_h, widths, dx)` fails
with `InvalidGeometry` if array lengths mismatch, if `dx ≤ 0`, or if any
`surface_h[i] < bed_h[i]`; otherwise it produces the flowline. -/
def construct (surface_h bed_h widths : List ℚ) (dx : ℚ) :
    Except GeomError Flowline :=
  if surface_h.length = bed_h.length ∧ bed_h.length = widths.length ∧ 0 < dx ∧
      ∀ i ∈ List.range surface_h.length, bed_h.getD i 0 ≤ surface_h.getD i 0 then
    .ok ⟨surface_h, bed_h, widths, dx⟩
  else
    .error .InvalidGeometry

end Flowline

/-! ## Mass-balance provider

`SimpleRandomMassBalance` is translated from the notebook source.  The
`numpy` random state is embedded as an abstract stream of standard-normal
draws together with a cursor: `rng.normal(avg, sigma)` is
`avg + sigma * draws cursor`, and every call advances the cursor by one. -/

/-- The stochastic mass-balance model of the notebook: a normally distributed
random mass balance with a linear gradient.  Fields `avg_ela_h`, `sigma_ela_h`
and `grad` are the constructor parameters; `draws` and `cursor` embed the
`np.random.RandomState` instance. -/
structure SimpleRandomMassBalance where
  avg_ela_h : ℚ
  sigma_ela_h : ℚ
  grad : ℚ
  draws : ℕ → ℚ
  cursor : ℕ

namespace SimpleRandomMassBalance

/-- The equilibrium-line altitude drawn by the next `rng.normal` call:
`avg_ela_h + sigma_ela_h * z` with `z` the current standard-normal draw. -/
def elaDrawn (m : SimpleRandomMassBalance) : ℚ :=
  m.avg_ela_h + m.sigma_ela_h * m.draws m.cursor

/-- From the notebook: `ela = rng.normal(avg_ela_h, sigma_ela_h);
mb = (heights - ela) * grad; return mb / SEC_IN_YEAR / RHO`.  Returns the
rate array together with the provider state after the random draw. -/
def get_annual_mb (m : SimpleRandomMassBalance) (heights : List ℚ)
    (_year : Option ℚ) : List ℚ × SimpleRandomMassBalance :=
  (heights.map (fun h => (h - m.elaDrawn) * m.grad / SEC_IN_YEAR / RHO),
    { m with cursor := m.cursor + 1 })

/-- The per-height rate computed inside a single `get_annual_mb` call. -/
def rateAt (m : SimpleRandomMassBalance) (h : ℚ) : ℚ :=
  (h - m.elaDrawn) * m.grad / SEC_IN_YEAR / RHO

end SimpleRandomMassBalance

/-! ## Flux-based evolution solver

Modelled from the spec, §4.3: the library `FluxBasedModel` is not shipped with
the repository.  The solver advances the flowline with adaptive steps `dt`
bounded by a CFL-style criterion and by `target − clock`; each step applies the
flux divergence and then the mass-balance forcing through `apply_delta`, and
detects numerical instability (a vanishing `dt` or a diverging thickness). -/

/-- Modelled from the spec: the tunable physical parameters of the solver —
flux constant `gamma` (the exact constants are tunable, not part of the core
contract), the thickness sanity bound `hmax`, and the mass-balance provider,
embedded for the solver claims as a pure function of (year, altitude) giving
meters of ice per second. -/
structure Params where
  gamma : ℚ
  hmax : ℚ
  mb : ℚ → ℚ → ℚ

/-- The zero mass-balance provider: returns 0 at every altitude and year. -/
def zeroMB : ℚ → ℚ → ℚ := fun _ _ => 0

/-- Modelled from the spec: solver status — `Idle` between calls, `Failed`
terminal after a detected `NumericalInstability`. -/
inductive SolverStatus
  | Idle
  | Failed
deriving DecidableEq

/-- Modelled from the spec: the evolution solver state — the flowline, the
simulation clock (years) and the status. -/
structure SolverState where
  fl : Flowline
  clock : ℚ
  status : SolverStatus
deriving DecidableEq

open Flowline

/-- Modelled from the spec: shallow-ice volume flux through grid boundary `i`
(between points `i-1` and `i`), zero at the domain ends: proportional to
(interface thickness)^(n+2) with n = 3 times the surface slope, integrated
over the interface width. -/
def interflux (p : Params) (fl : Flowline) (i : ℕ) : ℚ :=
  if 1 ≤ i ∧ i < fl.n then
    p.gamma * ((fl.wAt (i - 1) + fl.wAt i) / 2) *
      ((fl.thickAt (i - 1) + fl.thickAt i) / 2) ^ 5 *
      ((fl.sAt (i - 1) - fl.sAt i) / fl.dx)
  else 0

/-- Modelled from the spec: the diffusivity at interior boundary `i`, used by
the CFL-style stability bound. -/
def diffusivity (p : Params) (fl : Flowline) (i : ℕ) : ℚ :=
  p.gamma * ((fl.thickAt (i - 1) + fl.thickAt i) / 2) ^ 5

/-- Maximum diffusivity over the interior grid boundaries. -/
def maxDiffusivity (p : Params) (fl : Flowline) : ℚ :=
  maxRange (fun j => diffusivity p fl (j + 1)) (fl.n - 1)

/-- Modelled from the spec: the adaptive time step, bounded above by the
CFL-style criterion `dx² / (2 · max_diffusivity)` and by `target − clock`. -/
def stepDt (p : Params) (m : SolverState) (target : ℚ) : ℚ :=
  let maxD := maxDiffusivity p m.fl
  if maxD ≤ 0 then target - m.clock
  else min (m.fl.dx ^ 2 / (2 * maxD)) (target - m.clock)

/-- Modelled from the spec: per-point thickness change from the flux
divergence over `dt`. -/
def fluxDelta (p : Params) (fl : Flowline) (dt : ℚ) : List ℚ :=
  (List.range fl.n).map
    (fun i => -dt * (interflux p fl (i + 1) - interflux p fl i) / (fl.dx * fl.wAt i))

/-- Modelled from the spec: per-point thickness change from the mass-balance
forcing queried at the current clock, scaled by `dt` (the clock is in years,
the provider rate in meters of ice per second). -/
def mbDelta (p : Params) (clock : ℚ) (fl : Flowline) (dt : ℚ) : List ℚ :=
  (List.range fl.n).map (fun i => p.mb clock (fl.sAt i) * SEC_IN_YEAR * dt)

/-- Modelled from the spec: one adaptive solver step toward `target` — compute
`dt`, apply the flux divergence, apply the mass-balance forcing, then either
commit the whole thickness-and-clock update or, if `dt` vanished or the
thickness diverged, transition to `Failed` with nothing committed. -/
def step (p : Params) (m : SolverState) (target : ℚ) : SolverState :=
  let dt := stepDt p m target
  let fl1 := (m.fl.apply_delta (fluxDelta p m.fl dt)).1
  let fl2 := (fl1.apply_delta (mbDelta p m.clock fl1 dt)).1
  if dt ≤ 0 ∨ anyRange (fun i => decide (p.hmax < fl2.thickAt i)) fl2.n then
    { m with status := .Failed }
  else
    { fl := fl2, clock := m.clock + dt, status := m.status }

/-- The total volume restored by clamping in both `apply_delta` calls of one
solver step. -/
def stepClampGain (p : Params) (m : SolverState) (target : ℚ) : ℚ :=
  let dt := stepDt p m target
  let r1 := m.fl.apply_delta (fluxDelta p m.fl dt)
  r1.2 + (r1.1.apply_delta (mbDelta p m.clock r1.1 dt)).2

/-- The flux-divergence integral of one step: the volume change that the flux
delta alone would produce, summed over all grid points. -/
def fluxDivInt (p : Params) (fl : Flowline) (dt : ℚ) : ℚ :=
  sumRange (fun i => fl.wAt i * fl.dx * (fluxDelta p fl dt).getD i 0) fl.n

/-- Modelled from the spec: `run_until(target)` — while the clock is before
the target (and the solver has not failed), take adaptive steps.  The fuel
argument bounds the number of steps taken and is an artifact of the
embedding: `none` means the bound was exhausted, not a behavior of the
solver. -/
def run_until (p : Params) (fuel : ℕ) (m : SolverState) (target : ℚ) :
    Option SolverState :=
  if m.status = .Failed ∨ target ≤ m.clock then some m
  else
    match fuel with
    | 0 => none
    | f + 1 => run_until p f (step p m target) target

/-- Modelled from the spec: a sequence of `run_until` calls, recording the
clock after each call (the Driver's checkpoint loop). -/
def runSchedule (p : Params) (fuel : ℕ) (m : SolverState) :
    List ℚ → Option (List ℚ × SolverState)
  | [] => some ([], m)
  | y :: ys =>
    (run_until p fuel m y).bind fun m1 =>
      (runSchedule p fuel m1 ys).map fun r => (m1.clock :: r.1, r.2)

/-! ## Simulation driver

Modelled from the spec, §4.4, with an explicit heap of arrays so that the
aliasing contract is expressible: `store` maps cell indices to arrays,
`nextCell` is the allocation counter, `live` is the cell holding the solver's
live `surface_h` (mutated in place on every advance), and each recorded
snapshot is a fresh cell holding a copy of the live array. -/

/-- Modelled from the spec: the Simulation Driver state, with an explicit
array heap making in-place mutation and defensive copies observable. -/
structure Driver where
  store : ℕ → List ℚ
  nextCell : ℕ
  live : ℕ
  sol : SolverState

namespace Driver

/-- Modelled from the spec: record one checkpoint — a
`(year, length_m, volume_km3, snapshot)` tuple whose snapshot is a defensive
copy of the live `surface_h`, placed in a freshly allocated cell. -/
def record (d : Driver) : (ℚ × ℚ × ℚ × ℕ) × Driver :=
  ((d.sol.clock, d.sol.fl.length_m, d.sol.fl.volume_km3, d.nextCell),
    { d with
        store := Function.update d.store d.nextCell d.sol.fl.surface_h,
        nextCell := d.nextCell + 1 })

/-- Modelled from the spec: one driver advance — `run_until` the solver with
the given fuel and target, then write the mutated `surface_h` into the live
cell in place. -/
def advanceStep (p : Params) (d : Driver) (ft : ℕ × ℚ) : Driver :=
  match run_until p ft.1 d.sol ft.2 with
  | none => d
  | some m1 =>
    { d with sol := m1, store := Function.update d.store d.live m1.fl.surface_h }

end Driver

/-! ## Lemmas about `apply_delta` -/

namespace Flowline

theorem apply_delta_bed (fl : Flowline) (delta : List ℚ) :
    (fl.apply_delta delta).1.bed_h = fl.bed_h := rfl

theorem apply_delta_widths (fl : Flowline) (delta : List ℚ) :
    (fl.apply_delta delta).1.widths = fl.widths := rfl

theorem apply_delta_dx (fl : Flowline) (delta : List ℚ) :
    (fl.apply_delta delta).1.dx = fl.dx := rfl

theorem apply_delta_n (fl : Flowline) (delta : List ℚ) :
    (fl.apply_delta delta).1.n = fl.n := by
  simp [apply_delta, n]

theorem apply_delta_sAt (fl : Flowline) (delta : List ℚ) {i : ℕ} (h : i < fl.n) :
    (fl.apply_delta delta).1.sAt i = max (fl.sAt i + delta.getD i 0) (fl.bAt i) := by
  simp only [apply_delta, sAt]
  exact getD_range_map _ h 0

theorem apply_delta_thickAt (fl : Flowline) (delta : List ℚ) {i : ℕ} (h : i < fl.n) :
    (fl.apply_delta delta).1.thickAt i
      = max (fl.sAt i + delta.getD i 0) (fl.bAt i) - fl.bAt i := by
  rw [thickAt, apply_delta_sAt fl delta h]; rfl

theorem apply_delta_thickAt_nonneg (fl : Flowline) (delta : List ℚ) {i : ℕ}
    (h : i < (fl.apply_delta delta).1.n) :
    0 ≤ (fl.apply_delta delta).1.thickAt i := by
  rw [apply_delta_n] at h
  rw [apply_delta_thickAt fl delta h]
  exact sub_nonneg.mpr (le_max_right _ _)

theorem apply_delta_wf (fl : Flowline) (delta : List ℚ) (h : fl.Wf) :
    (fl.apply_delta delta).1.Wf := by
  obtain ⟨h1, h2, h3, _⟩ := h
  refine ⟨?_, ?_, ?_, ?_⟩
  · show ((List.range fl.n).map _).length = fl.bed_h.length
    simpa [n] using h1
  · exact h2
  · exact h3
  · intro i hi
    rw [apply_delta_n] at hi
    rw [show (fl.apply_delta delta).1.bAt i = fl.bAt i from rfl,
      apply_delta_sAt fl delta hi]
    exact le_max_right _ _

theorem apply_delta_posWidths (fl : Flowline) (delta : List ℚ)
    (h : fl.PosWidths) : (fl.apply_delta delta).1.PosWidths := by
  intro i hi
  rw [apply_delta_n] at hi
  exact h i hi

theorem apply_delta_totalVolume (fl : Flowline) (delta : List ℚ) :
    (fl.apply_delta delta).1.totalVolume_m3
      = fl.totalVolume_m3 + sumRange (fun i => fl.wAt i * fl.dx * delta.getD i 0) fl.n
        + (fl.apply_delta delta).2 := by
  have hn : (fl.apply_delta delta).1.n = fl.n := apply_delta_n fl delta
  rw [totalVolume_m3, hn]
  have hcg :
      sumRange
          (fun i => (fl.apply_delta delta).1.wAt i * (fl.apply_delta delta).1.dx *
            (fl.apply_delta delta).1.thickAt i) fl.n
        = sumRange
          (fun i => fl.wAt i * fl.dx * fl.thickAt i
            + fl.wAt i * fl.dx * delta.getD i 0
            + fl.wAt i * fl.dx *
                (max (fl.sAt i + delta.getD i 0) (fl.bAt i) - (fl.sAt i + delta.getD i 0)))
          fl.n := by
    apply sumRange_congr
    intro i hi
    rw [show (fl.apply_delta delta).1.wAt i = fl.wAt i from rfl,
      apply_delta_dx, apply_delta_thickAt fl delta hi, thickAt]
    ring
  rw [hcg, sumRange_add, sumRange_add]
  rfl

theorem apply_delta_lost_nonneg (fl : Flowline) (delta : List ℚ)
    (hdx : 0 < fl.dx) (hw : fl.PosWidths) : 0 ≤ (fl.apply_delta delta).2 := by
  apply sumRange_nonneg
  intro i hi
  have h1 : (0 : ℚ) ≤ fl.wAt i * fl.dx := le_of_lt (mul_pos (hw i hi) hdx)
  have h2 : (0 : ℚ) ≤ max (fl.sAt i + delta.getD i 0) (fl.bAt i) - (fl.sAt i + delta.getD i 0) :=
    sub_nonneg.mpr (le_max_left _ _)
  exact mul_nonneg h1 h2

end Flowline

/-! ## Claims C2 and C4 -/

/-- Claim C2: after every `apply_delta` call — for every input delta, including
arbitrarily large negative deltas — every element of `thickness()` is
non-negative, and likewise after every committed solver step. -/
theorem thickness_nonneg_after_apply_delta :
    (∀ (fl : Flowline) (delta : List ℚ),
      ∀ x ∈ (fl.apply_delta delta).1.thickness, 0 ≤ x) ∧
    (∀ (p : Params) (m : SolverState) (target : ℚ),
      (step p m target).status = .Idle →
      ∀ x ∈ (step p m target).fl.thickness, 0 ≤ x) := by
  have key : ∀ (fl : Flowline) (delta : List ℚ),
      ∀ x ∈ (fl.apply_delta delta).1.thickness, 0 ≤ x := by
    intro fl delta x hx
    rw [Flowline.thickness, List.mem_map] at hx
    obtain ⟨i, hi, rfl⟩ := hx
    exact Flowline.apply_delta_thickAt_nonneg fl delta (List.mem_range.mp hi)
  refine ⟨key, ?_⟩
  intro p m target hs x hx
  rw [step] at hs hx
  split_ifs at hs hx with hc
  · exact key _ _ x hx

/-- Claim C2 witness: a large negative delta on a concrete flowline still
leaves thickness non-negative. -/
theorem thickness_nonneg_after_apply_delta_witness :
    (0 : ℚ) ≤ ((⟨[1], [0], [1], 1⟩ : Flowline).apply_delta [-5]).1.thickAt 0 :=
  thickness_nonneg_after_apply_delta.1 ⟨[1], [0], [1], 1⟩ [-5] _
    (by rw [Flowline.thickness, List.mem_map]; exact ⟨0, by decide, rfl⟩)

/-- Claim C4: construction fails with `InvalidGeometry` exactly when the input
arrays have mismatched lengths, or `dx ≤ 0`, or `surface_h[i] < bed_h[i]` for
some `i`; on success the produced flowline is the given one and is
well-formed. -/
theorem construct_invalid_geometry_iff (s b w : List ℚ) (dx : ℚ) :
    (Flowline.construct s b w dx = .error .InvalidGeometry ↔
      s.length ≠ b.length ∨ b.length ≠ w.length ∨ dx ≤ 0 ∨
        ∃ i, i < s.length ∧ s.getD i 0 < b.getD i 0) ∧
    (∀ fl, Flowline.construct s b w dx = .ok fl →
      fl.Wf ∧ fl = ⟨s, b, w, dx⟩) := by
  have hiff : (s.length ≠ b.length ∨ b.length ≠ w.length ∨ dx ≤ 0 ∨
        ∃ i, i < s.length ∧ s.getD i 0 < b.getD i 0) ↔
      ¬(s.length = b.length ∧ b.length = w.length ∧ 0 < dx ∧
        ∀ i ∈ List.range s.length, b.getD i 0 ≤ s.getD i 0) := by
    simp only [not_and_or, not_forall, not_le, not_lt, List.mem_range, exists_prop]
  constructor
  · rw [Flowline.construct]
    split_ifs with hc
    · simp only [reduceCtorEq, false_iff]
      rw [hiff]
      exact fun h => h hc
    · simp only [true_iff]
      exact hiff.mpr hc
  · intro fl hok
    rw [Flowline.construct] at hok
    split_ifs at hok with hc
    · cases hok
      refine ⟨⟨hc.1, hc.2.1, hc.2.2.1, ?_⟩, rfl⟩
      intro i hi
      exact hc.2.2.2 i (List.mem_range.mpr hi)

/-- Claim C4 witness: a concrete valid geometry constructs, and a concrete
inverted geometry fails with `InvalidGeometry`. -/
theorem construct_invalid_geometry_iff_witness :
    Flowline.construct [1, 2] [0, 1] [3, 3] 1 = .error .InvalidGeometry ∨
      (⟨[1, 2], [0, 1], [3, 3], 1⟩ : Flowline).Wf :=
  Or.inr ((construct_invalid_geometry_iff [1, 2] [0, 1] [3, 3] 1).2
    ⟨[1, 2], [0, 1], [3, 3], 1⟩ (by rfl)).1

/-! ## Lemmas about `step` and `run_until` -/

theorem SolverStatus.idle_or_failed (s : SolverStatus) :
    s = .Idle ∨ s = .Failed := by
  cases s
  · exact Or.inl rfl
  · exact Or.inr rfl

theorem stepDt_le (p : Params) (m : SolverState) (target : ℚ) :
    stepDt p m target ≤ target - m.clock := by
  rw [stepDt]
  split_ifs
  · exact le_refl _
  · exact min_le_right _ _

theorem step_clock_ge (p : Params) (m : SolverState) (target : ℚ) :
    m.clock ≤ (step p m target).clock := by
  rw [step]
  split_ifs with hc
  · exact le_refl _
  · push_neg at hc
    have : 0 < stepDt p m target := hc.1
    show m.clock ≤ m.clock + stepDt p m target
    linarith

theorem step_clock_le (p : Params) (m : SolverState) (target : ℚ)
    (h : m.clock < target) : (step p m target).clock ≤ target := by
  rw [step]
  split_ifs with hc
  · exact le_of_lt h
  · show m.clock + stepDt p m target ≤ target
    have := stepDt_le p m target
    linarith

theorem step_status_idle (p : Params) (m : SolverState) (target : ℚ)
    (h : (step p m target).status = .Idle) : m.status = .Idle := by
  rw [step] at h
  split_ifs at h with hc
  · exact h

theorem step_failed_frame (p : Params) (m : SolverState) (target : ℚ)
    (hm : m.status = .Idle) (h : (step p m target).status = .Failed) :
    (step p m target).fl = m.fl ∧ (step p m target).clock = m.clock := by
  rw [step] at h ⊢
  split_ifs at h ⊢ with hc
  · exact ⟨rfl, rfl⟩
  · have h2 : m.status = SolverStatus.Failed := h
    rw [hm] at h2
    cases h2

theorem run_until_failed (p : Params) (fuel : ℕ) (m : SolverState) (target : ℚ)
    (h : m.status = .Failed) : run_until p fuel m target = some m := by
  rw [run_until.eq_def, if_pos (Or.inl h)]

theorem run_until_stop (p : Params) (fuel : ℕ) (m : SolverState) (target : ℚ)
    (h : target ≤ m.clock) : run_until p fuel m target = some m := by
  rw [run_until.eq_def, if_pos (Or.inr h)]

theorem run_until_active (p : Params) (f : ℕ) (m : SolverState) (target : ℚ)
    (h1 : m.status = .Idle) (h2 : m.clock < target) :
    run_until p (f + 1) m target = run_until p f (step p m target) target := by
  rw [run_until.eq_def, if_neg]
  intro hc
  rcases hc with hc | hc
  · rw [h1] at hc; cases hc
  · exact absurd hc (not_le.mpr h2)

theorem run_until_clock_mono (p : Params) :
    ∀ (fuel : ℕ) (m m' : SolverState) (target : ℚ),
      run_until p fuel m target = some m' → m.clock ≤ m'.clock := by
  intro fuel
  induction fuel with
  | zero =>
    intro m m' target h
    rw [run_until] at h
    split_ifs at h
    · cases h; exact le_refl _
  | succ f ih =>
    intro m m' target h
    rw [run_until] at h
    split_ifs at h
    · cases h; exact le_refl _
    · exact le_trans (step_clock_ge p m target) (ih _ _ _ h)

theorem run_until_no_overshoot (p : Params) :
    ∀ (fuel : ℕ) (m m' : SolverState) (target : ℚ),
      run_until p fuel m target = some m' → m'.clock ≤ max m.clock target := by
  intro fuel
  induction fuel with
  | zero =>
    intro m m' target h
    rw [run_until] at h
    split_ifs at h
    · cases h; exact le_max_left _ _
  | succ f ih =>
    intro m m' target h
    rw [run_until] at h
    split_ifs at h with hc
    · cases h; exact le_max_left _ _
    · push_neg at hc
      have h1 : (step p m target).clock ≤ target := step_clock_le p m target hc.2
      have h2 := ih _ _ _ h
      have h3 : max (step p m target).clock target = target := max_eq_right h1
      rw [h3] at h2
      exact le_trans h2 (le_max_right _ _)

theorem run_until_idle_reached (p : Params) :
    ∀ (fuel : ℕ) (m m' : SolverState) (target : ℚ),
      run_until p fuel m target = some m' → m'.status = .Idle →
        target ≤ m'.clock := by
  intro fuel
  induction fuel with
  | zero =>
    intro m m' target h hi
    rw [run_until] at h
    split_ifs at h with hc
    · cases h
      rcases hc with hc | hc
      · rw [hi] at hc; cases hc
      · exact hc
  | succ f ih =>
    intro m m' target h hi
    rw [run_until] at h
    split_ifs at h with hc
    · cases h
      rcases hc with hc | hc
      · rw [hi] at hc; cases hc
      · exact hc
    · exact ih _ _ _ h hi

theorem run_until_status_idle (p : Params) :
    ∀ (fuel : ℕ) (m m' : SolverState) (target : ℚ),
      run_until p fuel m target = some m' → m'.status = .Idle →
        m.status = .Idle := by
  intro fuel
  induction fuel with
  | zero =>
    intro m m' target h hi
    rw [run_until] at h
    split_ifs at h
    · cases h; exact hi
  | succ f ih =>
    intro m m' target h hi
    rw [run_until] at h
    split_ifs at h
    · cases h; exact hi
    · exact step_status_idle p m target (ih _ _ _ h hi)

theorem run_until_success_clock (p : Params) (fuel : ℕ) (m m' : SolverState)
    (target : ℚ) (hle : m.clock ≤ target)
    (h : run_until p fuel m target = some m') (hi : m'.status = .Idle) :
    m'.clock = target := by
  have h1 := run_until_idle_reached p fuel m m' target h hi
  have h2 := run_until_no_overshoot p fuel m m' target h
  rw [max_eq_right hle] at h2
  exact le_antisymm h2 h1

/-! ## Claims C3 and C6 -/

/-- Claim C3: calling `run_until(y)` when the clock is already at or past `y`
returns the solver state unchanged — same flowline state, same clock (a
byte-for-byte no-op). -/
theorem run_until_noop_at_or_past_target (p : Params) (fuel : ℕ)
    (m : SolverState) (target : ℚ) (h : target ≤ m.clock) :
    run_until p fuel m target = some m :=
  run_until_stop p fuel m target h

/-- Claim C3 witness: a concrete no-op call. -/
theorem run_until_noop_at_or_past_target_witness :
    run_until ⟨1, 1000, zeroMB⟩ 7 ⟨⟨[1], [0], [1], 1⟩, 5, .Idle⟩ 3
      = some ⟨⟨[1], [0], [1], 1⟩, 5, .Idle⟩ :=
  run_until_noop_at_or_past_target ⟨1, 1000, zeroMB⟩ 7
    ⟨⟨[1], [0], [1], 1⟩, 5, .Idle⟩ 3 (by norm_num)

/-- Claim C6: a step that detects numerical instability is atomic — it leaves
the flowline state and the clock at their last valid values — and a failed
solver is surfaced unchanged by `run_until` rather than retried internally. -/
theorem step_failure_atomic_and_surfaced (p : Params) (m : SolverState)
    (target : ℚ) (fuel : ℕ) :
    (m.status = .Idle → (step p m target).status = .Failed →
      (step p m target).fl = m.fl ∧ (step p m target).clock = m.clock) ∧
    (m.status = .Failed → run_until p fuel m target = some m) :=
  ⟨step_failed_frame p m target, run_until_failed p fuel m target⟩

/-- Claim C6 witness: a concrete step that fails (thickness above the sanity
bound) commits nothing, and a concrete failed solver is returned unchanged. -/
theorem step_failure_atomic_and_surfaced_witness :
    ((step ⟨1, 1, zeroMB⟩ ⟨⟨[2], [0], [1], 1⟩, 0, .Idle⟩ 1).fl
        = (⟨⟨[2], [0], [1], 1⟩, 0, .Idle⟩ : SolverState).fl ∧
      (step ⟨1, 1, zeroMB⟩ ⟨⟨[2], [0], [1], 1⟩, 0, .Idle⟩ 1).clock
        = (⟨⟨[2], [0], [1], 1⟩, 0, .Idle⟩ : SolverState).clock) ∧
    run_until ⟨1, 1, zeroMB⟩ 4 ⟨⟨[2], [0], [1], 1⟩, 0, .Failed⟩ 9
      = some ⟨⟨[2], [0], [1], 1⟩, 0, .Failed⟩ :=
  ⟨(step_failure_atomic_and_surfaced ⟨1, 1, zeroMB⟩
      ⟨⟨[2], [0], [1], 1⟩, 0, .Idle⟩ 1 4).1 rfl
      (by norm_num [step, stepDt, maxDiffusivity, maxRange, diffusivity, fluxDelta,
        mbDelta, interflux, Flowline.apply_delta, Flowline.thickAt, Flowline.sAt,
        Flowline.bAt, Flowline.wAt, Flowline.n, anyRange, sumRange, zeroMB,
        List.range_succ]),
    (step_failure_atomic_and_surfaced ⟨1, 1, zeroMB⟩
      ⟨⟨[2], [0], [1], 1⟩, 0, .Failed⟩ 9 4).2 rfl⟩

/-! ## The checkpoint schedule -/

theorem runSchedule_status_idle (p : Params) (fuel : ℕ) :
    ∀ (ys : List ℚ) (m : SolverState) (r : List ℚ × SolverState),
      runSchedule p fuel m ys = some r → r.2.status = .Idle →
        m.status = .Idle := by
  intro ys
  induction ys with
  | nil =>
    intro m r h hi
    rw [runSchedule] at h
    cases h
    exact hi
  | cons y ys ih =>
    intro m r h hi
    rw [runSchedule] at h
    cases hr : run_until p fuel m y with
    | none => rw [hr] at h; cases h
    | some m1 =>
      rw [hr, Option.some_bind] at h
      cases hs : runSchedule p fuel m1 ys with
      | none => rw [hs] at h; cases h
      | some r1 =>
        rw [hs, Option.map_some'] at h
        have hm1 : m1.status = .Idle := by
          apply ih m1 r1 hs
          cases h
          exact hi
        exact run_until_status_idle p fuel m m1 y hr hm1

theorem runSchedule_exact (p : Params) (fuel : ℕ) :
    ∀ (ys : List ℚ) (m : SolverState) (r : List ℚ × SolverState),
      m.status = .Idle → List.Pairwise (· < ·) ys → (∀ y ∈ ys, m.clock ≤ y) →
      runSchedule p fuel m ys = some r → r.2.status = .Idle →
        r.1 = ys ∧ List.Chain' (· ≤ ·) (m.clock :: r.1) := by
  intro ys
  induction ys with
  | nil =>
    intro m r _ _ _ h _
    rw [runSchedule] at h
    cases h
    exact ⟨rfl, List.chain'_singleton _⟩
  | cons y ys ih =>
    intro m r hidle hpw hge h hfin
    rw [runSchedule] at h
    cases hr : run_until p fuel m y with
    | none => rw [hr] at h; cases h
    | some m1 =>
      rw [hr, Option.some_bind] at h
      cases hs : runSchedule p fuel m1 ys with
      | none => rw [hs] at h; cases h
      | some r1 =>
        rw [hs, Option.map_some'] at h
        cases h
        have hm1 : m1.status = .Idle :=
          runSchedule_status_idle p fuel ys m1 r1 hs hfin
        have hy : m.clock ≤ y := hge y (List.mem_cons_self y ys)
        have hclock : m1.clock = y :=
          run_until_success_clock p fuel m m1 y hy hr hm1
        have hpw1 := (List.pairwise_cons.mp hpw).2
        have hlt := (List.pairwise_cons.mp hpw).1
        have hge1 : ∀ z ∈ ys, m1.clock ≤ z := by
          intro z hz
          rw [hclock]
          exact le_of_lt (hlt z hz)
        obtain ⟨hcs, hch⟩ := ih m1 r1 hm1 hpw1 hge1 hs hfin
        constructor
        · show m1.clock :: r1.1 = y :: ys
          rw [hclock, hcs]
        · show List.Chain' (· ≤ ·) (m.clock :: m1.clock :: r1.1)
          rw [List.chain'_cons]
          exact ⟨by rw [hclock]; exact hy, hch⟩

/-! ## Claim C1 -/

/-- Claim C1: for a sequence of `run_until` calls with strictly increasing
targets (all at or past the initial clock), if the solver completes them in
the `Idle` state then the clock recorded after each call equals exactly that
call's target, the recorded clocks never decrease, and the clock is monotone
within every single `run_until` call. -/
theorem clock_matches_targets (p : Params) (fuel : ℕ) (m : SolverState)
    (ys cs : List ℚ) (mf : SolverState) (hidle : m.status = .Idle)
    (hpw : List.Pairwise (· < ·) ys) (hge : ∀ y ∈ ys, m.clock ≤ y)
    (hrun : runSchedule p fuel m ys = some (cs, mf))
    (hfin : mf.status = .Idle) :
    (cs = ys ∧ List.Chain' (· ≤ ·) (m.clock :: cs)) ∧
      ∀ (m1 m2 : SolverState) (t : ℚ),
        run_until p fuel m1 t = some m2 → m1.clock ≤ m2.clock :=
  ⟨runSchedule_exact p fuel ys m (cs, mf) hidle hpw hge hrun hfin,
    fun m1 m2 t h => run_until_clock_mono p fuel m1 m2 t h⟩

/-! Concrete evaluation of a two-call schedule, for the C1 witness: an
ice-free single-point flowline, so that every call takes exactly one committed
step of size `target − clock`. -/

def schedP : Params := ⟨1, 1000, zeroMB⟩

def schedFl : Flowline := ⟨[0], [0], [1], 1⟩

def schedM0 : SolverState := ⟨schedFl, 0, .Idle⟩

def schedM1 : SolverState := ⟨schedFl, 1, .Idle⟩

def schedM2 : SolverState := ⟨schedFl, 2, .Idle⟩

theorem sched_step1 : step schedP schedM0 1 = schedM1 := by
  norm_num [schedP, schedM0, schedM1, schedFl, step, stepDt, maxDiffusivity,
    maxRange, diffusivity, fluxDelta, mbDelta, interflux, Flowline.apply_delta,
    Flowline.thickAt, Flowline.sAt, Flowline.bAt, Flowline.wAt, Flowline.n,
    anyRange, sumRange, zeroMB, List.range_succ, SolverState.mk.injEq,
    Flowline.mk.injEq]

theorem sched_step2 : step schedP schedM1 2 = schedM2 := by
  norm_num [schedP, schedM1, schedM2, schedFl, step, stepDt, maxDiffusivity,
    maxRange, diffusivity, fluxDelta, mbDelta, interflux, Flowline.apply_delta,
    Flowline.thickAt, Flowline.sAt, Flowline.bAt, Flowline.wAt, Flowline.n,
    anyRange, sumRange, zeroMB, List.range_succ, SolverState.mk.injEq,
    Flowline.mk.injEq]

theorem sched_run1 : run_until schedP 2 schedM0 1 = some schedM1 := by
  rw [run_until_active schedP 1 schedM0 1 rfl (by norm_num [schedM0]), sched_step1]
  exact run_until_stop schedP 1 schedM1 1 (le_refl 1)

theorem sched_run2 : run_until schedP 2 schedM1 2 = some schedM2 := by
  rw [run_until_active schedP 1 schedM1 2 rfl (by norm_num [schedM1]), sched_step2]
  exact run_until_stop schedP 1 schedM2 2 (le_refl 2)

theorem sched_eval :
    runSchedule schedP 2 schedM0 [1, 2] = some ([1, 2], schedM2) := by
  rw [show ([(1 : ℚ), 2]) = [1, 2] from rfl, runSchedule, sched_run1,
    Option.some_bind, runSchedule, sched_run2, Option.some_bind, runSchedule,
    Option.map_some', Option.map_some']
  rfl

/-- Claim C1 witness: a concrete two-call schedule reaches exactly the targets
1 and 2. -/
theorem clock_matches_targets_witness :
    ([(1 : ℚ), 2] = [1, 2] ∧
      List.Chain' (· ≤ ·) ((0 : ℚ) :: [1, 2])) ∧
      ∀ (m1 m2 : SolverState) (t : ℚ),
        run_until schedP 2 m1 t = some m2 → m1.clock ≤ m2.clock :=
  clock_matches_targets schedP 2 schedM0 [1, 2] [1, 2] schedM2 rfl
    (by norm_num)
    (by intro y hy; fin_cases hy <;> norm_num [schedM0])
    sched_eval
    rfl

/-! ## Claims C7, C8 and C10: the notebook mass-balance model -/

namespace SimpleRandomMassBalance

/-- Concrete provider for the C7 counterexample: default notebook parameters,
with an explicit standard-normal draw stream `0, 1, 2, …`. -/
def mbC7 : SimpleRandomMassBalance := ⟨2500, 300, 3, fun k => (k : ℚ), 0⟩

/-- Claim C7 counterexample: `get_annual_mb` is not a pure function of
(altitude array, optional year): two calls on the same provider with identical
arguments return different rate arrays, because the random draw advances. -/
theorem get_annual_mb_not_pure_in_args :
    (mbC7.get_annual_mb [2500] (some 5)).1 ≠
      ((mbC7.get_annual_mb [2500] (some 5)).2.get_annual_mb [2500] (some 5)).1 := by
  norm_num [get_annual_mb, elaDrawn, mbC7, SEC_IN_YEAR, RHO]

/-- Claim C7, amended: `get_annual_mb` is a pure function of the altitude
array, the optional year and the provider's random-generator state: for a
fixed state it is deterministic and independent of the year, it returns an
array of the same shape as the input, and it is defined for every rational
height — each entry being `(height − ela) * grad / SEC_IN_YEAR / RHO`. -/
theorem get_annual_mb_state_determined (m : SimpleRandomMassBalance)
    (heights : List ℚ) (year : Option ℚ) :
    ((m.get_annual_mb heights year).1).length = heights.length ∧
    (∀ i, i < heights.length →
      ((m.get_annual_mb heights year).1).getD i 0
        = (heights.getD i 0 - m.elaDrawn) * m.grad / SEC_IN_YEAR / RHO) ∧
    (∀ year2 : Option ℚ,
      m.get_annual_mb heights year = m.get_annual_mb heights year2) := by
  refine ⟨List.length_map _ _, ?_, fun _ => rfl⟩
  intro i hi
  rw [get_annual_mb]
  show (heights.map fun h => (h - m.elaDrawn) * m.grad / SEC_IN_YEAR / RHO).getD i 0
    = (heights.getD i 0 - m.elaDrawn) * m.grad / SEC_IN_YEAR / RHO
  rw [List.getD_eq_getElem?_getD, List.getElem?_map,
    List.getElem?_eq_getElem hi, List.getD_eq_getElem?_getD,
    List.getElem?_eq_getElem hi]
  rfl

/-- Claim C7 amended-claim witness: shape and formula at a concrete call. -/
theorem get_annual_mb_state_determined_witness :
    ((mbC7.get_annual_mb [1000, 2000] none).1).length = 2 ∧
    ((mbC7.get_annual_mb [1000, 2000] none).1).getD 0 0
      = ((1000 : ℚ) - mbC7.elaDrawn) * mbC7.grad / SEC_IN_YEAR / RHO :=
  ⟨(get_annual_mb_state_determined mbC7 [1000, 2000] none).1,
    (get_annual_mb_state_determined mbC7 [1000, 2000] none).2.1 0 (by norm_num)⟩

/-- Concrete provider for claim C8, with the draw stream `0, 1, 2, …`. -/
def mbC8 : SimpleRandomMassBalance := ⟨2500, 300, 3, fun k => (k : ℚ), 0⟩

/-- Claim C8: the stochastic provider redraws its random equilibrium-line
altitude on every call — the random cursor advances on each call regardless of
the year argument — so two calls with identical heights and year can return
different results (shown at a concrete provider state). -/
theorem get_annual_mb_redraws_each_call :
    (∀ (m : SimpleRandomMassBalance) (heights : List ℚ) (year : Option ℚ),
      (m.get_annual_mb heights year).2.cursor = m.cursor + 1 ∧
      (m.get_annual_mb heights year).2.draws = m.draws) ∧
    (mbC8.get_annual_mb [3000] (some 7)).1 ≠
      ((mbC8.get_annual_mb [3000] (some 7)).2.get_annual_mb [3000] (some 7)).1 := by
  refine ⟨fun m heights year => ⟨rfl, rfl⟩, ?_⟩
  norm_num [get_annual_mb, elaDrawn, mbC8, SEC_IN_YEAR, RHO]

/-- Claim C10: within a single `get_annual_mb` call with `grad > 0`, every
returned entry equals `(height − ela) * grad / SEC_IN_YEAR / RHO` for the one
ELA drawn in that call; the rate is strictly increasing in height, zero
exactly at the drawn ELA, negative below it and positive above it. -/
theorem rate_linear_in_height (m : SimpleRandomMassBalance) (y : Option ℚ)
    (h h1 h2 : ℚ) (hg : 0 < m.grad) :
    (m.get_annual_mb [h1, h2] y).1 = [m.rateAt h1, m.rateAt h2] ∧
    m.rateAt h = (h - m.elaDrawn) * m.grad / SEC_IN_YEAR / RHO ∧
    (h1 < h2 → m.rateAt h1 < m.rateAt h2) ∧
    m.rateAt m.elaDrawn = 0 ∧
    (h < m.elaDrawn → m.rateAt h < 0) ∧
    (m.elaDrawn < h → 0 < m.rateAt h) := by
  have hS : (0 : ℚ) < SEC_IN_YEAR := by norm_num [SEC_IN_YEAR]
  have hR : (0 : ℚ) < RHO := by norm_num [RHO]
  refine ⟨rfl, rfl, ?_, ?_, ?_, ?_⟩
  · intro hlt
    apply div_lt_div_of_pos_right ?_ hR
    apply div_lt_div_of_pos_right ?_ hS
    exact mul_lt_mul_of_pos_right (by linarith) hg
  · rw [rateAt, sub_self, zero_mul, zero_div, zero_div]
  · intro hlt
    apply div_neg_of_neg_of_pos ?_ hR
    apply div_neg_of_neg_of_pos ?_ hS
    exact mul_neg_of_neg_of_pos (by linarith) hg
  · intro hlt
    apply div_pos ?_ hR
    apply div_pos ?_ hS
    exact mul_pos (by linarith) hg

/-- Claim C10 witness: the linear-gradient facts at a concrete provider. -/
theorem rate_linear_in_height_witness :
    (mbC7.get_annual_mb [0, 1] none).1 = [mbC7.rateAt 0, mbC7.rateAt 1] ∧
    mbC7.rateAt mbC7.elaDrawn = 0 ∧
    0 < mbC7.rateAt 2600 :=
  ⟨(rate_linear_in_height mbC7 none 0 0 1 (by norm_num [mbC7])).1,
    (rate_linear_in_height mbC7 none 0 0 1 (by norm_num [mbC7])).2.2.2.1,
    (rate_linear_in_height mbC7 none 2600 0 1 (by norm_num [mbC7])).2.2.2.2.2
      (by norm_num [mbC7, elaDrawn])⟩

end SimpleRandomMassBalance

/-! ## Claim C9: snapshots are defensive copies -/

namespace Driver

theorem advanceStep_live (p : Params) (d : Driver) (ft : ℕ × ℚ) :
    (advanceStep p d ft).live = d.live := by
  rw [advanceStep]
  cases run_until p ft.1 d.sol ft.2 with
  | none => rfl
  | some m1 => rfl

theorem advanceStep_store_frame (p : Params) (d : Driver) (ft : ℕ × ℚ)
    {j : ℕ} (hj : j ≠ d.live) : (advanceStep p d ft).store j = d.store j := by
  rw [advanceStep]
  cases run_until p ft.1 d.sol ft.2 with
  | none => rfl
  | some m1 =>
    show Function.update d.store d.live m1.fl.surface_h j = d.store j
    exact Function.update_noteq hj _ _

theorem foldl_advance_frame (p : Params) :
    ∀ (ops : List (ℕ × ℚ)) (d : Driver) (j : ℕ), j ≠ d.live →
      (ops.foldl (advanceStep p) d).store j = d.store j := by
  intro ops
  induction ops with
  | nil => intro d j _; rfl
  | cons ft ops ih =>
    intro d j hj
    rw [List.foldl_cons]
    rw [ih (advanceStep p d ft) j (by rw [advanceStep_live]; exact hj)]
    exact advanceStep_store_frame p d ft hj

/-- Claim C9: the snapshot recorded by the driver is a defensive copy — its
cell is distinct from the live cell, and after any sequence of subsequent
solver advances (each of which mutates the live `surface_h` array in place)
the snapshot cell still holds exactly the `surface_h` contents it held at
record time. -/
theorem snapshot_decoupled_from_live (p : Params) (d : Driver)
    (halloc : d.live < d.nextCell) :
    (record d).1.2.2.2 ≠ d.live ∧
    ∀ ops : List (ℕ × ℚ),
      (ops.foldl (advanceStep p) (record d).2).store ((record d).1.2.2.2)
        = d.sol.fl.surface_h := by
  have hne : d.nextCell ≠ d.live := Nat.ne_of_gt halloc
  refine ⟨hne, ?_⟩
  intro ops
  show (ops.foldl (advanceStep p) (record d).2).store d.nextCell
    = d.sol.fl.surface_h
  rw [foldl_advance_frame p ops (record d).2 d.nextCell hne]
  show Function.update d.store d.nextCell d.sol.fl.surface_h d.nextCell
    = d.sol.fl.surface_h
  exact Function.update_same _ _ _

/-- Concrete driver for the C9 witness: one allocated cell, live at cell 0. -/
def d9 : Driver := ⟨fun _ => [], 1, 0, ⟨⟨[5], [0], [1], 1⟩, 0, .Idle⟩⟩

/-- Claim C9 witness: a concrete driver, one recorded snapshot, one subsequent
advance; the snapshot cell still holds the recorded surface. -/
theorem snapshot_decoupled_from_live_witness :
    (([((2 : ℕ), (1 : ℚ))]).foldl (advanceStep ⟨1, 1000, zeroMB⟩)
        (record d9).2).store ((record d9).1.2.2.2) = [5] :=
  (snapshot_decoupled_from_live ⟨1, 1000, zeroMB⟩ d9 (by norm_num [d9])).2
    [((2 : ℕ), (1 : ℚ))]

end Driver

/-! ## Claim C5: volume accounting under a zero mass balance -/

theorem sumRange_zero (n : ℕ) : sumRange (fun _ => (0 : ℚ)) n = 0 := by
  induction n with
  | zero => rfl
  | succ k ih => simp [sumRange, ih]

theorem interflux_left_boundary (p : Params) (fl : Flowline) :
    interflux p fl 0 = 0 := by
  rw [interflux, if_neg]
  intro hc
  exact absurd hc.1 (by norm_num)

theorem interflux_right_boundary (p : Params) (fl : Flowline) :
    interflux p fl fl.n = 0 := by
  rw [interflux, if_neg]
  intro hc
  exact absurd hc.2 (lt_irrefl _)

/-- The flux-divergence integral telescopes to the net boundary flux, which is
zero across the closed domain ends. -/
theorem fluxDivInt_zero (p : Params) (fl : Flowline) (dt : ℚ)
    (hdx : fl.dx ≠ 0) (hw : ∀ i, i < fl.n → fl.wAt i ≠ 0) :
    fluxDivInt p fl dt = 0 := by
  rw [fluxDivInt]
  have h : ∀ i, i < fl.n →
      fl.wAt i * fl.dx * (fluxDelta p fl dt).getD i 0
        = -dt * (interflux p fl (i + 1) - interflux p fl i) := by
    intro i hi
    rw [fluxDelta, getD_range_map _ hi]
    have hwi := hw i hi
    field_simp
    ring
  rw [sumRange_congr h, sumRange_mul_left, sumRange_telescope,
    interflux_right_boundary, interflux_left_boundary]
  ring

/-- With a zero mass-balance provider the mass-balance delta contributes no
volume. -/
theorem mb_sum_zero (p : Params) (hmb : p.mb = zeroMB) (clock : ℚ)
    (fl : Flowline) (dt : ℚ) :
    sumRange (fun i => fl.wAt i * fl.dx * (mbDelta p clock fl dt).getD i 0)
      fl.n = 0 := by
  have h : ∀ i, i < fl.n →
      fl.wAt i * fl.dx * (mbDelta p clock fl dt).getD i 0 = (fun _ => (0 : ℚ)) i := by
    intro i hi
    rw [mbDelta, getD_range_map _ hi, hmb]
    show fl.wAt i * fl.dx * (zeroMB clock (fl.sAt i) * SEC_IN_YEAR * dt) = 0
    rw [zeroMB]
    ring
  rw [sumRange_congr h, sumRange_zero]

theorem stepClampGain_nonneg (p : Params) (m : SolverState) (target : ℚ)
    (hwf : m.fl.Wf) (hpw : m.fl.PosWidths) : 0 ≤ stepClampGain p m target := by
  simp only [stepClampGain]
  apply add_nonneg
  · exact Flowline.apply_delta_lost_nonneg _ _ hwf.2.2.1 hpw
  · apply Flowline.apply_delta_lost_nonneg
    · rw [Flowline.apply_delta_dx]; exact hwf.2.2.1
    · exact Flowline.apply_delta_posWidths _ _ hpw

theorem step_fl_of_idle (p : Params) (m : SolverState) (target : ℚ)
    (hs : (step p m target).status = .Idle) :
    (step p m target).fl
      = ((m.fl.apply_delta (fluxDelta p m.fl (stepDt p m target))).1.apply_delta
          (mbDelta p m.clock
            (m.fl.apply_delta (fluxDelta p m.fl (stepDt p m target))).1
            (stepDt p m target))).1 := by
  rw [step] at hs ⊢
  split_ifs at hs ⊢ with hc
  · rfl

theorem step_wf (p : Params) (m : SolverState) (target : ℚ)
    (h : m.fl.Wf) : (step p m target).fl.Wf := by
  rw [step]
  split_ifs with hc
  · exact h
  · exact Flowline.apply_delta_wf _ _ (Flowline.apply_delta_wf _ _ h)

theorem step_posWidths (p : Params) (m : SolverState) (target : ℚ)
    (h : m.fl.PosWidths) : (step p m target).fl.PosWidths := by
  rw [step]
  split_ifs with hc
  · exact h
  · exact Flowline.apply_delta_posWidths _ _ (Flowline.apply_delta_posWidths _ _ h)

/-- One-step volume accounting: the total volume after a committed step is the
volume before, plus the (zero) flux-divergence integral, plus the volume
restored by clamping. -/
theorem step_totalVolume (p : Params) (hmb : p.mb = zeroMB) (m : SolverState)
    (target : ℚ) (hs : (step p m target).status = .Idle) :
    (step p m target).fl.totalVolume_m3
      = m.fl.totalVolume_m3 + fluxDivInt p m.fl (stepDt p m target)
        + stepClampGain p m target := by
  have e1 : (m.fl.apply_delta (fluxDelta p m.fl (stepDt p m target))).1.totalVolume_m3
      = m.fl.totalVolume_m3 + fluxDivInt p m.fl (stepDt p m target)
        + (m.fl.apply_delta (fluxDelta p m.fl (stepDt p m target))).2 :=
    Flowline.apply_delta_totalVolume m.fl (fluxDelta p m.fl (stepDt p m target))
  have e2 := Flowline.apply_delta_totalVolume
    (m.fl.apply_delta (fluxDelta p m.fl (stepDt p m target))).1
    (mbDelta p m.clock (m.fl.apply_delta (fluxDelta p m.fl (stepDt p m target))).1
      (stepDt p m target))
  rw [mb_sum_zero p hmb m.clock _ (stepDt p m target)] at e2
  rw [step_fl_of_idle p m target hs, e2, e1]
  simp only [stepClampGain]
  ring

/-- The committed two-`apply_delta` update never loses total volume under a
zero mass balance. -/
theorem commit_volume_ge (p : Params) (hmb : p.mb = zeroMB) (m : SolverState)
    (target : ℚ) (hwf : m.fl.Wf) (hpw : m.fl.PosWidths) :
    m.fl.totalVolume_m3
      ≤ ((m.fl.apply_delta (fluxDelta p m.fl (stepDt p m target))).1.apply_delta
          (mbDelta p m.clock
            (m.fl.apply_delta (fluxDelta p m.fl (stepDt p m target))).1
            (stepDt p m target))).1.totalVolume_m3 := by
  have e1 : (m.fl.apply_delta (fluxDelta p m.fl (stepDt p m target))).1.totalVolume_m3
      = m.fl.totalVolume_m3 + fluxDivInt p m.fl (stepDt p m target)
        + (m.fl.apply_delta (fluxDelta p m.fl (stepDt p m target))).2 :=
    Flowline.apply_delta_totalVolume m.fl (fluxDelta p m.fl (stepDt p m target))
  have e2 := Flowline.apply_delta_totalVolume
    (m.fl.apply_delta (fluxDelta p m.fl (stepDt p m target))).1
    (mbDelta p m.clock (m.fl.apply_delta (fluxDelta p m.fl (stepDt p m target))).1
      (stepDt p m target))
  rw [mb_sum_zero p hmb m.clock _ (stepDt p m target)] at e2
  have hflux := fluxDivInt_zero p m.fl (stepDt p m target) (ne_of_gt hwf.2.2.1)
    (fun i hi => ne_of_gt (hpw i hi))
  have l1 := Flowline.apply_delta_lost_nonneg m.fl
    (fluxDelta p m.fl (stepDt p m target)) hwf.2.2.1 hpw
  have l2 := Flowline.apply_delta_lost_nonneg
    (m.fl.apply_delta (fluxDelta p m.fl (stepDt p m target))).1
    (mbDelta p m.clock (m.fl.apply_delta (fluxDelta p m.fl (stepDt p m target))).1
      (stepDt p m target))
    (by rw [Flowline.apply_delta_dx]; exact hwf.2.2.1)
    (Flowline.apply_delta_posWidths _ _ hpw)
  rw [e2, e1]
  linarith

/-- A solver step never loses total volume under a zero mass balance. -/
theorem step_volume_ge (p : Params) (hmb : p.mb = zeroMB) (m : SolverState)
    (target : ℚ) (hwf : m.fl.Wf) (hpw : m.fl.PosWidths) :
    m.fl.totalVolume_m3 ≤ (step p m target).fl.totalVolume_m3 := by
  rw [step]
  split_ifs with hc
  · exact le_refl _
  · exact commit_volume_ge p hmb m target hwf hpw

theorem run_until_volume_mono (p : Params) (hmb : p.mb = zeroMB) :
    ∀ (fuel : ℕ) (m m' : SolverState) (target : ℚ), m.fl.Wf → m.fl.PosWidths →
      run_until p fuel m target = some m' →
        m.fl.totalVolume_m3 ≤ m'.fl.totalVolume_m3 := by
  intro fuel
  induction fuel with
  | zero =>
    intro m m' target _ _ h
    rw [run_until] at h
    split_ifs at h
    · cases h; exact le_refl _
  | succ f ih =>
    intro m m' target hwf hpw h
    rw [run_until] at h
    split_ifs at h
    · cases h; exact le_refl _
    · exact le_trans (step_volume_ge p hmb m target hwf hpw)
        (ih _ _ _ (step_wf p m target hwf) (step_posWidths p m target hpw) h)

/-- Claim C5, amended: for a zero mass-balance provider, the total-volume
change of a committed solver step equals the flux-divergence integral plus the
volume restored by clamping negative thickness; the flux-divergence integral
over the closed domain is exactly zero and the clamping term is non-negative,
so total ice volume summed over all grid points is non-decreasing (not
non-increasing) across `run_until`; the threshold-filtered `volume_km3` can
strictly increase when flux pushes a point across the ice-free threshold. -/
theorem volume_accounting_zero_mb (p : Params) (hmb : p.mb = zeroMB)
    (m : SolverState) (target : ℚ) (hwf : m.fl.Wf) (hpw : m.fl.PosWidths) :
    ((step p m target).status = .Idle →
      (step p m target).fl.totalVolume_m3
        = m.fl.totalVolume_m3 + fluxDivInt p m.fl (stepDt p m target)
          + stepClampGain p m target) ∧
    fluxDivInt p m.fl (stepDt p m target) = 0 ∧
    0 ≤ stepClampGain p m target ∧
    ∀ (fuel : ℕ) (m' : SolverState), run_until p fuel m target = some m' →
      m.fl.totalVolume_m3 ≤ m'.fl.totalVolume_m3 :=
  ⟨fun hs => step_totalVolume p hmb m target hs,
    fluxDivInt_zero p m.fl (stepDt p m target) (ne_of_gt hwf.2.2.1)
      (fun i hi => ne_of_gt (hpw i hi)),
    stepClampGain_nonneg p m target hwf hpw,
    fun fuel m' h => run_until_volume_mono p hmb fuel m m' target hwf hpw h⟩

theorem schedFl_wf : schedFl.Wf := by
  refine ⟨rfl, rfl, ?_, ?_⟩
  · norm_num [schedFl]
  · intro i hi
    have h1 : i < 1 := by simpa [schedFl, Flowline.n] using hi
    have h0 : i = 0 := by omega
    subst h0
    norm_num [schedFl, Flowline.bAt, Flowline.sAt]

theorem schedFl_posW : schedFl.PosWidths := by
  intro i hi
  have h1 : i < 1 := by simpa [schedFl, Flowline.n] using hi
  have h0 : i = 0 := by omega
  subst h0
  norm_num [schedFl, Flowline.wAt]

/-- Claim C5 amended-claim witness: the accounting at a concrete state. -/
theorem volume_accounting_zero_mb_witness :
    fluxDivInt schedP schedM0.fl (stepDt schedP schedM0 1) = 0 ∧
      0 ≤ stepClampGain schedP schedM0 1 :=
  ⟨(volume_accounting_zero_mb schedP rfl schedM0 1 schedFl_wf schedFl_posW).2.1,
    (volume_accounting_zero_mb schedP rfl schedM0 1 schedFl_wf schedFl_posW).2.2.1⟩

/-! ### The C5 counterexample

A two-point flowline with zero mass balance: the second point holds `1/20` m
of ice, below the ice-free threshold `1/10`, so it does not count toward
`volume_km3`.  One committed flux step moves about `0.066` m of ice into it,
pushing it above the threshold, and the threshold-filtered `volume_km3`
strictly increases — refuting "non-increasing". -/

def cexP : Params := ⟨1, 1000, zeroMB⟩

def cexFl : Flowline := ⟨[2, 1 / 20], [0, 0], [1, 1], 1⟩

def cexM : SolverState := ⟨cexFl, 0, .Idle⟩

/-- The flowline after the one committed step of size `3/100`. -/
def cexFl1 : Flowline :=
  ⟨[396044824483 / 204800000000, 23795175517 / 204800000000], [0, 0], [1, 1], 1⟩

def cexM1 : SolverState := ⟨cexFl1, 3 / 100, .Idle⟩

set_option maxHeartbeats 1000000 in
theorem cex_step : step cexP cexM (3 / 100) = cexM1 := by
  norm_num [cexP, cexM, cexM1, cexFl, cexFl1, step, stepDt, maxDiffusivity,
    maxRange, diffusivity, fluxDelta, mbDelta, interflux, Flowline.apply_delta,
    Flowline.thickAt, Flowline.sAt, Flowline.bAt, Flowline.wAt, Flowline.n,
    anyRange, sumRange, zeroMB, List.range_succ, min_def,
    SolverState.mk.injEq, Flowline.mk.injEq]

theorem cex_run : run_until cexP 2 cexM (3 / 100) = some cexM1 := by
  rw [run_until_active cexP 1 cexM (3 / 100) rfl (by norm_num [cexM]), cex_step]
  exact run_until_stop cexP 1 cexM1 (3 / 100) (le_refl _)

/-- Claim C5 counterexample: with a zero mass-balance provider,
`volume_km3` strictly increases over a concrete `run_until` advance (a
sub-threshold point crosses the ice-free threshold), refuting
"`volume_km3` is non-increasing over time". -/
theorem volume_km3_can_increase_zero_mb :
    cexP.mb = zeroMB ∧
    run_until cexP 2 cexM (3 / 100) = some cexM1 ∧
    cexM.fl.volume_km3 < cexM1.fl.volume_km3 := by
  refine ⟨rfl, cex_run, ?_⟩
  norm_num [cexM, cexM1, cexFl, cexFl1, Flowline.volume_km3, Flowline.volume_m3,
    Flowline.iceFreeThr, Flowline.thickAt, Flowline.sAt, Flowline.bAt,
    Flowline.wAt, Flowline.n, sumRange]

end Glacier
